import Mathlib

/-!
Verification of `src/objectpack/tools.py` (m3-objectpack).

The Python module is shallowly embedded: every helper becomes a Lean
function over explicit state; raised exceptions become `Except` errors;
Python dicts become association lists; the Django ORM boundary
(`model.objects.get`, field lists, attribute access) is modelled by
explicit function parameters and attribute maps.
-/

namespace ObjectPack

/-- Python exception kinds raised (or caught) by the module under study. -/
inductive PyError where
  | valueError
  | indexError
  | typeError
  | stopIteration
  | assertionError
  deriving DecidableEq, Repr

/-- Python values appearing in the module: `None`, ints, strings,
related model objects (with an optional `id` attribute and a display
string produced by `unicode`), and the `{'id': .., 'name': ..}` dicts
built for foreign keys by `model_to_dict`. -/
inductive PyVal where
  | pyNone
  | pyInt (n : Int)
  | pyStr (s : String)
  | related (id : Option Int) (repr : String)
  | fkDict (id : Option Int) (name : String)
  deriving DecidableEq, Repr

/-- Lookup in a Python dict modelled as an association list
(first binding wins; `dictInsert` keeps keys unique). -/
def dictGet {κ ν : Type} [DecidableEq κ] : List (κ × ν) → κ → Option ν
  | [], _ => none
  | p :: rest, k => if p.1 = k then some p.2 else dictGet rest k

/-- Python dict assignment `d[k] = v`: any previous binding of `k`
is replaced. -/
def dictInsert {κ ν : Type} [DecidableEq κ] (d : List (κ × ν)) (k : κ) (v : ν) :
    List (κ × ν) :=
  d.filter (fun p => decide (p.1 ≠ k)) ++ [(k, v)]

/-! ### QuerySplitter (tools.py lines 17-118)

The instance attributes `_data`, `_start`, `_limit`, `_chunk`, `_cnt`,
`_no_more_data` become the fields of a state record.  The initial
`_chunk = None` and the empty list are both falsy for the test
`if not self._chunk`, so both are represented by `[]`. -/

structure QuerySplitter (α : Type) where
  data : List α
  start : Nat
  limit : Nat
  chunk : List α
  cnt : Nat
  noMoreData : Bool
  deriving DecidableEq, Repr

namespace QuerySplitter

/-- The `__init__` state: `query`, `start`, `limit` as given,
`_chunk = None`, `_cnt = 0`, `_no_more_data = False`. -/
def init {α : Type} (query : List α) (start limit : Nat) : QuerySplitter α :=
  ⟨query, start, limit, [], 0, false⟩

/-- The chunk-loading block of `next` (lines 56-62):
`self._chunk = list(self._data[self._start : self._start + self._limit])`,
then either set `_no_more_data` (short chunk) or advance `_start` by
`_limit`.  A Python slice `l[a : a + n]` with `a, n ≥ 0` is
`(l.drop a).take n`. -/
def loadChunk {α : Type} (s : QuerySplitter α) : QuerySplitter α :=
  let chunk := (s.data.drop s.start).take s.limit
  if chunk.length < s.limit then
    { s with chunk := chunk, noMoreData := true }
  else
    { s with chunk := chunk, start := s.start + s.limit }

/-- The method `next` (lines 50-69).  `raise StopIteration` becomes
`Except.error .stopIteration`; on success the popped head and the
mutated state are returned. -/
def next {α : Type} (s : QuerySplitter α) : Except PyError (α × QuerySplitter α) :=
  if s.limit ≤ s.cnt then
    .error .stopIteration
  else
    let s₁ := if s.chunk.isEmpty && !s.noMoreData then loadChunk s else s
    match s₁.chunk with
    | [] => .error .stopIteration
    | x :: rest => .ok (x, { s₁ with chunk := rest, cnt := s₁.cnt + 1 })

/-- The method `skip_last` (lines 71-77): raises `IndexError` when
`_cnt` is zero (leaving the state untouched), otherwise decrements
`_cnt` by one. -/
def skip_last {α : Type} (s : QuerySplitter α) :
    Except PyError Unit × QuerySplitter α :=
  if s.cnt = 0 then
    (.error .indexError, s)
  else
    (.ok (), { s with cnt := s.cnt - 1 })

/-- The method `__iter__` (lines 43-48).  With a falsy `_limit` it
stores the stub `lambda self: None` as an instance attribute named
`skip_last` and returns a plain iterator over `_data`; otherwise it
returns the splitter itself.  The boolean records whether the stub
was installed. -/
def iter {α : Type} (s : QuerySplitter α) : (List α ⊕ QuerySplitter α) × Bool :=
  if s.limit = 0 then (Sum.inl s.data, true) else (Sum.inr s, false)

/-- Number of positional parameters of the stub `lambda self: None`
installed by `__iter__`. -/
def stubParams : Nat := 1

/-- Python call semantics for the stored stub: a plain function held in
an instance attribute is not bound, so `obj.skip_last()` passes it zero
positional arguments; an arity mismatch raises `TypeError`. -/
def callStub (argsGiven : Nat) : Except PyError Unit :=
  if argsGiven = stubParams then .ok () else .error .typeError

/-- Dispatch of the call `obj.skip_last()`: either the stub installed by
`__iter__` (called with zero arguments) or the real method. -/
def callSkipLast {α : Type} (overridden : Bool) (s : QuerySplitter α) :
    Except PyError Unit × QuerySplitter α :=
  if overridden then (callStub 0, s) else skip_last s

/-- The `for` loop of `make_rows` when `__iter__` returned a plain
iterator over the data (the `limit = 0` branch): on a rejected item the
loop calls the stub `skip_last`, whose arity mismatch raises. -/
def makeRowsSimple {α β : Type} (row_fabric : α → β) (validator : α → Bool) :
    List α → List β → Except PyError (List β)
  | [], rows => .ok rows
  | x :: xs, rows =>
    if validator x then
      makeRowsSimple row_fabric validator xs (rows ++ [row_fabric x])
    else
      match callStub 0 with
      | .error e => .error e
      | .ok _ => makeRowsSimple row_fabric validator xs rows

/-- The `for` loop of `make_rows` when iterating the splitter itself
(lines 113-117): `next` until `StopIteration`, appending
`row_fabric item` for valid items and calling `skip_last` otherwise.
The fuel argument bounds the number of iterations; `make_rows` passes
enough fuel for the loop to run to completion (see
`makeRowsLoop_spec`). -/
def makeRowsLoop {α β : Type} (row_fabric : α → β) (validator : α → Bool) :
    Nat → QuerySplitter α → List β → Except PyError (List β)
  | 0, _, _ => .error .stopIteration
  | fuel + 1, s, rows =>
    match next s with
    | .error _ => .ok rows
    | .ok (x, s') =>
      if validator x then
        makeRowsLoop row_fabric validator fuel s' (rows ++ [row_fabric x])
      else
        match skip_last s' with
        | (.ok _, s'') => makeRowsLoop row_fabric validator fuel s'' rows
        | (.error e, _) => .error e

/-- The classmethod `make_rows` (lines 79-118), in its `request = None`
form: `start` and `limit` are passed directly (the `request` branch of
lines 106-108 only substitutes extracted values for these two
parameters before the identical loop runs). -/
def make_rows {α β : Type} (query : List α) (row_fabric : α → β)
    (validator : α → Bool) (start limit : Nat) : Except PyError (List β) :=
  match iter (init query start limit) with
  | (Sum.inl xs, _) => makeRowsSimple row_fabric validator xs []
  | (Sum.inr s, _) => makeRowsLoop row_fabric validator (query.length + 1) s []

/-- The items the splitter can still deliver: the current chunk followed
by the not-yet-sliced tail of the data (empty once `_no_more_data` is
set, since no further slice will be taken). -/
def remaining {α : Type} (s : QuerySplitter α) : List α :=
  s.chunk ++ (if s.noMoreData then [] else s.data.drop s.start)

lemma remaining_nil {α : Type} (s : QuerySplitter α) (hch : s.chunk = [])
    (hnm : s.noMoreData = true) : remaining s = [] := by
  simp [remaining, hch, hnm]

/-- One successful `next` step pops the head of `remaining`, increments
`_cnt` and leaves `_limit` and `_data` alone; with `_cnt < _limit`,
`next` stops exactly when nothing remains. -/
lemma next_remaining {α : Type} (s : QuerySplitter α)
    (hl : 0 < s.limit) (hc : s.cnt < s.limit) :
    (remaining s = [] ∧ next s = Except.error PyError.stopIteration) ∨
    (∃ x s', next s = Except.ok (x, s') ∧ remaining s = x :: remaining s' ∧
      s'.cnt = s.cnt + 1 ∧ s'.limit = s.limit ∧ s'.data = s.data) := by
  have hnle : ¬ s.limit ≤ s.cnt := Nat.not_le.mpr hc
  rcases hch : s.chunk with _ | ⟨x, rest⟩
  · rcases hnm : s.noMoreData with _ | _
    · -- `_no_more_data` unset: a fresh slice is loaded
      rcases hdrop : s.data.drop s.start with _ | ⟨y, ys⟩
      · left
        refine ⟨by simp [remaining, hch, hnm, hdrop], ?_⟩
        simp [next, hnle, hch, hnm, loadChunk, hdrop, hl]
      · right
        obtain ⟨l, hlim⟩ : ∃ l, s.limit = l + 1 :=
          ⟨s.limit - 1, (Nat.succ_pred_eq_of_pos hl).symm⟩
        by_cases hlen : ((s.data.drop s.start).take s.limit).length < s.limit
        · -- short slice: the whole tail fits, `_no_more_data` is set
          have hlt : (s.data.drop s.start).length < s.limit := by
            rw [List.length_take] at hlen
            rcases Nat.le_total s.limit (s.data.drop s.start).length with h | h
            · rw [Nat.min_eq_left h] at hlen
              exact absurd hlen (lt_irrefl _)
            · rwa [Nat.min_eq_right h] at hlen
          have htake : (s.data.drop s.start).take s.limit = s.data.drop s.start :=
            List.take_of_length_le (Nat.le_of_lt hlt)
          have hlen' : ys.length + 1 < s.limit := by
            rw [hdrop] at hlt
            simpa using hlt
          have htake' : List.take s.limit (y :: ys) = y :: ys := by
            rw [← hdrop]
            exact htake
          refine ⟨y, ⟨s.data, s.start, s.limit, ys, s.cnt + 1, true⟩, ?_, ?_, rfl, rfl, rfl⟩
          · simp [next, hnle, hch, hnm, loadChunk, htake', hdrop, hlen']
          · simp [remaining, hch, hnm, hdrop]
        · -- full slice: `_start` advances by `_limit`
          have htake : (s.data.drop s.start).take s.limit = y :: (List.take l ys) := by
            rw [hdrop, hlim, List.take_succ_cons]
          have hlen' : ¬ (ys.length + 1 < s.limit) := by
            intro h
            apply hlen
            rw [List.length_take, hdrop]
            simp only [List.length_cons]
            omega
          have hrest : ys = List.take l ys ++ s.data.drop (s.start + s.limit) := by
            have h1 : s.data.drop (s.start + s.limit) = List.drop l ys := by
              rw [← List.drop_drop, hdrop, hlim, List.drop_succ_cons]
            rw [h1, List.take_append_drop]
          have hlen'' : ¬ (l ⊓ ys.length + 1 < s.limit) := by
            rw [hlim] at hlen' ⊢
            omega
          refine ⟨y, ⟨s.data, s.start + s.limit, s.limit, List.take l ys, s.cnt + 1, s.noMoreData⟩,
            ?_, ?_, rfl, rfl, rfl⟩
          · simp [next, hnle, hch, hnm, loadChunk, htake, hlen', hlen'']
          · rw [remaining, remaining, hch, hnm]
            simp only [Bool.false_eq_true, if_false, List.nil_append, hdrop]
            rw [← hrest]
    · -- `_no_more_data` set and chunk empty: iteration is over
      left
      refine ⟨remaining_nil s hch hnm, ?_⟩
      simp [next, hnle, hch, hnm]
  · -- nonempty chunk: pop its head
    right
    refine ⟨x, ⟨s.data, s.start, s.limit, rest, s.cnt + 1, s.noMoreData⟩, ?_, ?_, rfl, rfl, rfl⟩
    · simp [next, hnle, hch]
    · simp [remaining, hch]

lemma remaining_set_cnt {α : Type} (s : QuerySplitter α) (c : Nat) :
    remaining { s with cnt := c } = remaining s := rfl

/-- The `make_rows` loop delivers, past the already-collected `rows`,
the `row_fabric` image of the first `_limit - _cnt` validator-accepted
items among those the splitter can still deliver. -/
lemma makeRowsLoop_spec {α β : Type} (row_fabric : α → β) (validator : α → Bool) :
    ∀ (fuel : Nat) (s : QuerySplitter α) (rows : List β),
      0 < s.limit → (remaining s).length < fuel →
      makeRowsLoop row_fabric validator fuel s rows =
        Except.ok (rows ++
          (((remaining s).filter validator).take (s.limit - s.cnt)).map row_fabric)
  | 0, _, _ => by
      intro _ hfuel
      exact absurd hfuel (Nat.not_lt_zero _)
  | fuel + 1, s, rows => by
      intro hl hfuel
      by_cases hc : s.cnt < s.limit
      · rcases next_remaining s hl hc with ⟨hrem, hnext⟩ | ⟨x, s', hnext, hrem, hcnt, hlim, _⟩
        · simp only [makeRowsLoop, hnext]
          simp [hrem]
        · have hlen1 : (remaining s).length = (remaining s').length + 1 := by
            rw [hrem]
            rfl
          have hfuel' : (remaining s').length < fuel := by omega
          simp only [makeRowsLoop, hnext]
          rcases hv : validator x with _ | _
          · -- rejected item: skip_last rolls the count back
            simp only [hv, Bool.false_eq_true, if_false]
            have hcnt0 : ¬ s'.cnt = 0 := by omega
            rw [skip_last, if_neg hcnt0]
            show makeRowsLoop row_fabric validator fuel { s' with cnt := s'.cnt - 1 } rows = _
            rw [makeRowsLoop_spec row_fabric validator fuel { s' with cnt := s'.cnt - 1 } rows
              (by simpa using hlim ▸ hl) (by simpa [remaining_set_cnt] using hfuel')]
            simp only [remaining_set_cnt]
            rw [hrem]
            simp [List.filter_cons, hv, hlim, hcnt]
          · -- accepted item: it is appended and counts against the limit
            simp only [hv, if_true]
            rw [makeRowsLoop_spec row_fabric validator fuel s' (rows ++ [row_fabric x])
              (hlim ▸ hl) hfuel']
            obtain ⟨k, hk⟩ : ∃ k, s.limit - s.cnt = k + 1 :=
              ⟨s.limit - s.cnt - 1, by omega⟩
            have hk' : s'.limit - s'.cnt = k := by
              rw [hlim, hcnt]
              omega
            rw [hrem, hk', hk]
            simp [List.filter_cons, hv, List.take_succ_cons]
      · have hle : s.limit ≤ s.cnt := Nat.not_lt.mp hc
        have hnext : next s = Except.error PyError.stopIteration := by
          rw [next, if_pos hle]
        simp only [makeRowsLoop, hnext]
        simp [Nat.sub_eq_zero_of_le hle]

end QuerySplitter

/-- Claim C1: for every sliceable query, validator, row_fabric, start and
positive limit, `QuerySplitter.make_rows` returns `row_fabric` applied to
exactly the first `limit` elements at or after position `start` that
satisfy the validator (all of them when fewer than `limit` exist);
rejected elements are skipped via `skip_last` and do not count against
the limit. -/
theorem make_rows_paginates {α β : Type} (query : List α) (row_fabric : α → β)
    (validator : α → Bool) (start limit : Nat) (hl : 0 < limit) :
    QuerySplitter.make_rows query row_fabric validator start limit =
      Except.ok ((((query.drop start).filter validator).take limit).map row_fabric) := by
  have h0 : ¬ limit = 0 := by omega
  rw [QuerySplitter.make_rows, QuerySplitter.init, QuerySplitter.iter]
  simp only [if_neg h0]
  rw [QuerySplitter.makeRowsLoop_spec row_fabric validator (query.length + 1)
    ⟨query, start, limit, [], 0, false⟩ [] hl
    (by simp [QuerySplitter.remaining, List.length_drop]; omega)]
  simp [QuerySplitter.remaining]

/-- Witness for C1, mirroring the doctest of `QuerySplitter`:
start 5, limit 10, odd numbers below 50. -/
theorem make_rows_paginates_witness :
    QuerySplitter.make_rows (List.range 50) (fun x => x) (fun x => x % 2 == 1) 5 10 =
      Except.ok [5, 7, 9, 11, 13, 15, 17, 19, 21, 23] :=
  (make_rows_paginates (List.range 50) (fun x => x) (fun x => x % 2 == 1) 5 10
    (by decide)).trans (by rfl)

lemma next_preserves_flag {α : Type} (t t' : QuerySplitter α) (x : α)
    (htf : t.noMoreData = true)
    (h : QuerySplitter.next t = Except.ok (x, t')) : t'.noMoreData = true := by
  rw [QuerySplitter.next] at h
  by_cases hcu : t.limit ≤ t.cnt
  · rw [if_pos hcu] at h
    simp at h
  · rw [if_neg hcu] at h
    simp only [htf, Bool.not_true, Bool.and_false, Bool.false_eq_true, if_false] at h
    rcases hch : t.chunk with _ | ⟨y, rest⟩
    · rw [hch] at h
      simp at h
    · rw [hch] at h
      simp only [Except.ok.injEq, Prod.mk.injEq] at h
      obtain ⟨h1, h2⟩ := h
      subst h2
      rfl

/-- Claim C2: for a splitter with positive limit, the chunk-loading step
takes exactly the slice `[start, start + limit)`, sets the no-more-data
flag precisely when that slice is short (leaving `start` alone) and
otherwise advances `start` by `limit`; the flag is never unset by `next`
or `skip_last`; and `next` raises StopIteration exactly when the
delivered count has reached `limit` or the (possibly just loaded) chunk
is empty. -/
theorem next_chunk_paging {α : Type} (s t u : QuerySplitter α) (x : α)
    (t' : QuerySplitter α)
    (hsl : 0 < s.limit) (hsc : s.chunk = []) (hsf : s.noMoreData = false)
    (htf : t.noMoreData = true)
    (hnext : QuerySplitter.next t = Except.ok (x, t')) :
    (QuerySplitter.loadChunk s).chunk = (s.data.drop s.start).take s.limit ∧
    (QuerySplitter.loadChunk s).noMoreData =
      decide (((s.data.drop s.start).take s.limit).length < s.limit) ∧
    (QuerySplitter.loadChunk s).start =
      (if ((s.data.drop s.start).take s.limit).length < s.limit then s.start
       else s.start + s.limit) ∧
    t'.noMoreData = true ∧
    (QuerySplitter.skip_last t).2.noMoreData = true ∧
    (QuerySplitter.next u = Except.error PyError.stopIteration ↔
      (u.limit ≤ u.cnt ∨
        (if u.chunk.isEmpty && !u.noMoreData then QuerySplitter.loadChunk u
         else u).chunk = [])) := by
  refine ⟨?_, ?_, ?_, next_preserves_flag t t' x htf hnext, ?_, ?_⟩
  · by_cases h : ((s.data.drop s.start).take s.limit).length < s.limit
    · simp only [QuerySplitter.loadChunk, if_pos h]
    · simp only [QuerySplitter.loadChunk, if_neg h]
  · by_cases h : ((s.data.drop s.start).take s.limit).length < s.limit
    · simp only [QuerySplitter.loadChunk, if_pos h]
      exact (decide_eq_true h).symm
    · simp only [QuerySplitter.loadChunk, if_neg h]
      rw [hsf]
      exact (decide_eq_false h).symm
  · by_cases h : ((s.data.drop s.start).take s.limit).length < s.limit
    · simp only [QuerySplitter.loadChunk, if_pos h]
    · simp only [QuerySplitter.loadChunk, if_neg h]
  · by_cases h : t.cnt = 0 <;> simp [QuerySplitter.skip_last, h, htf]
  · rw [QuerySplitter.next]
    by_cases hcu : u.limit ≤ u.cnt
    · simp [hcu]
    · rw [if_neg hcu]
      rcases hch : (if u.chunk.isEmpty && !u.noMoreData then QuerySplitter.loadChunk u
          else u).chunk with _ | ⟨y, rest⟩
      · simp [hch, hcu]
      · simp [hch, hcu]

/-- Witness for C2: a concrete splitter loading a full slice, one with
its flag set surviving a `next`, and the StopIteration criterion. -/
theorem next_chunk_paging_witness :
    (QuerySplitter.loadChunk (⟨[1, 2, 3], 0, 2, [], 0, false⟩ : QuerySplitter Nat)).chunk =
      (([1, 2, 3] : List Nat).drop 0).take 2 ∧
    (QuerySplitter.loadChunk (⟨[1, 2, 3], 0, 2, [], 0, false⟩ : QuerySplitter Nat)).noMoreData =
      decide (((([1, 2, 3] : List Nat).drop 0).take 2).length < 2) ∧
    (QuerySplitter.loadChunk (⟨[1, 2, 3], 0, 2, [], 0, false⟩ : QuerySplitter Nat)).start =
      (if ((([1, 2, 3] : List Nat).drop 0).take 2).length < 2 then 0 else 0 + 2) ∧
    (⟨[1], 0, 2, [], 1, true⟩ : QuerySplitter Nat).noMoreData = true ∧
    (QuerySplitter.skip_last (⟨[1], 0, 2, [1], 0, true⟩ : QuerySplitter Nat)).2.noMoreData = true ∧
    (QuerySplitter.next (⟨[], 0, 1, [], 0, true⟩ : QuerySplitter Nat) =
        Except.error PyError.stopIteration ↔
      (1 ≤ 0 ∨
        (if ([] : List Nat).isEmpty && !true then
          QuerySplitter.loadChunk (⟨[], 0, 1, [], 0, true⟩ : QuerySplitter Nat)
         else (⟨[], 0, 1, [], 0, true⟩ : QuerySplitter Nat)).chunk = [])) :=
  next_chunk_paging (⟨[1, 2, 3], 0, 2, [], 0, false⟩ : QuerySplitter Nat)
    (⟨[1], 0, 2, [1], 0, true⟩ : QuerySplitter Nat)
    (⟨[], 0, 1, [], 0, true⟩ : QuerySplitter Nat) 1
    (⟨[1], 0, 2, [], 1, true⟩ : QuerySplitter Nat)
    (by decide) rfl rfl rfl rfl

/-- Claim C5: `skip_last` is a single-item rollback: it decrements the
delivered-item count by exactly one, and when the count is zero it
raises IndexError leaving the state unchanged. -/
theorem skip_last_rollback {α : Type} (s : QuerySplitter α) :
    (s.cnt = 0 →
      QuerySplitter.skip_last s = (Except.error PyError.indexError, s)) ∧
    (0 < s.cnt →
      (QuerySplitter.skip_last s).1 = Except.ok () ∧
      (QuerySplitter.skip_last s).2.cnt + 1 = s.cnt ∧
      (QuerySplitter.skip_last s).2.data = s.data ∧
      (QuerySplitter.skip_last s).2.start = s.start ∧
      (QuerySplitter.skip_last s).2.limit = s.limit ∧
      (QuerySplitter.skip_last s).2.chunk = s.chunk ∧
      (QuerySplitter.skip_last s).2.noMoreData = s.noMoreData) := by
  constructor
  · intro h
    simp [QuerySplitter.skip_last, h]
  · intro h
    have h0 : ¬ s.cnt = 0 := by omega
    simp [QuerySplitter.skip_last, h0]
    omega

/-- Witness for C5: IndexError at count zero, and an exact decrement at
count one. -/
theorem skip_last_rollback_witness :
    QuerySplitter.skip_last (⟨[1, 2, 3], 0, 2, [], 0, false⟩ : QuerySplitter Nat) =
      (Except.error PyError.indexError, ⟨[1, 2, 3], 0, 2, [], 0, false⟩) ∧
    (QuerySplitter.skip_last (⟨[1, 2, 3], 2, 2, [3], 1, false⟩ : QuerySplitter Nat)).2.cnt + 1 = 1 :=
  ⟨(skip_last_rollback _).1 rfl, ((skip_last_rollback _).2 (by decide)).2.1⟩

/-- Claim C9 (code bug): with limit 0, `__iter__` does return the
underlying data unchanged and installs the stub in place of
`skip_last`; but the stub `lambda self: None` is stored as an instance
attribute, so a call `skip_last()` passes it zero arguments while it
expects one, raising TypeError instead of being a no-op. -/
theorem iter_zero_limit_stub :
    QuerySplitter.iter (QuerySplitter.init ([0, 1, 2] : List Nat) 0 0) =
      (Sum.inl [0, 1, 2], true) ∧
    QuerySplitter.callSkipLast true (QuerySplitter.init ([0, 1, 2] : List Nat) 0 0) =
      (Except.error PyError.typeError, QuerySplitter.init ([0, 1, 2] : List Nat) 0 0) :=
  ⟨rfl, rfl⟩

/-! ### ModelCache (tools.py lines 124-171)

The ORM boundary is an oracle: `lookupFn` stands for
`model.objects.get(**kwargs)` with `DoesNotExist` already mapped to
`None` by `_get_object`; `object_fabric` is an optional total function
(the code asserts its result is a model instance with a non-None id).
`get` additionally reports whether the lookup and the factory ran, so
that memoization is observable. -/

/-- Keyword arguments of a `get` call: parameter names with values. -/
abbrev Kwargs := List (String × PyVal)

/-- Byte-wise lexicographic comparison of character lists, the order
Python uses to sort strings. -/
def charsLe : List Char → List Char → Bool
  | [], _ => true
  | _ :: _, [] => false
  | a :: as, b :: bs =>
    if a.toNat < b.toNat then true
    else if b.toNat < a.toNat then false
    else charsLe as bs

/-- Python string comparison for `sorted`. -/
def strLe (a b : String) : Bool := charsLe a.data b.data

/-- The staticmethod `_key_for_dict` (lines 139-141):
`tuple(sorted(d.iteritems(), key=lambda i: i[0]))` — the items sorted
(stably) by key name. -/
def _key_for_dict (d : Kwargs) : Kwargs :=
  d.insertionSort (fun p q => strLe p.1 q.1 = true)

structure ModelCache where
  lookupFn : Kwargs → Option PyVal
  fabric : Option (Kwargs → PyVal)
  cache : List (Kwargs × Option PyVal)
  lastKwargs : Kwargs

/-- The method `_get_object` (lines 143-147): the ORM `get`, with
`DoesNotExist` caught and turned into `None`. -/
def ModelCache._get_object (mc : ModelCache) (kwargs : Kwargs) : Option PyVal :=
  mc.lookupFn kwargs

/-- Result of a `ModelCache.get` call, with effect flags recording
whether the ORM lookup and the object factory were invoked. -/
structure GetResult where
  value : Option PyVal
  state : ModelCache
  performedLookup : Bool
  calledFabric : Bool

/-- The method `get` (lines 149-166): record `_last_kwargs`, build the
sorted-tuple key, return a cached value if present; otherwise look the
object up, fall back to the factory when the lookup missed and a
factory was supplied, store the result under the key and return it. -/
def ModelCache.get (mc₀ : ModelCache) (kwargs : Kwargs) : GetResult :=
  let mc := { mc₀ with lastKwargs := kwargs }
  let key := _key_for_dict kwargs
  match dictGet mc.cache key with
  | some v => ⟨v, mc, false, false⟩
  | none =>
    let new := mc._get_object kwargs
    match new, mc.fabric with
    | none, some f =>
      ⟨some (f kwargs),
        { mc with cache := dictInsert mc.cache key (some (f kwargs)) },
        true, true⟩
    | new, _ =>
      ⟨new, { mc with cache := dictInsert mc.cache key new }, true, false⟩

lemma dictGet_dictInsert_self {κ ν : Type} [DecidableEq κ]
    (d : List (κ × ν)) (k : κ) (v : ν) :
    dictGet (dictInsert d k v) k = some v := by
  induction d with
  | nil => simp [dictInsert, dictGet]
  | cons p rest ih =>
    by_cases h : p.1 = k
    · simpa [dictInsert, h] using ih
    · simpa [dictInsert, dictGet, h] using ih

lemma modelCache_get_cache_hit (m : ModelCache) (kw : Kwargs) (w : Option PyVal)
    (hw : dictGet m.cache (_key_for_dict kw) = some w) :
    ModelCache.get m kw = ⟨w, { m with lastKwargs := kw }, false, false⟩ := by
  simp only [ModelCache.get, hw]

/-- Claim C3: `ModelCache.get` memoizes by the sorted-tuple key: a first
call for a fresh key performs the model lookup, falls back to the
factory when the lookup misses and a factory was supplied, and stores
the result; any later call whose keyword arguments encode to the same
sorted-tuple key returns the stored value without performing another
lookup or factory call (so `get(a=1, b=2)` and `get(b=2, a=1)` hit the
same cache entry). -/
theorem model_cache_get_memoizes (mc mc₂ : ModelCache) (kw₁ kw₂ kw₃ : Kwargs)
    (v : Option PyVal)
    (hmiss : dictGet mc.cache (_key_for_dict kw₁) = none)
    (hkey : _key_for_dict kw₂ = _key_for_dict kw₁)
    (hhit : dictGet mc₂.cache (_key_for_dict kw₃) = some v) :
    (ModelCache.get mc kw₁).performedLookup = true ∧
    (ModelCache.get mc kw₁).value =
      (match mc.lookupFn kw₁ with
       | some w => some w
       | none => mc.fabric.map (fun f => f kw₁)) ∧
    ((ModelCache.get mc kw₁).calledFabric = true ↔
      (mc.lookupFn kw₁ = none ∧ mc.fabric.isSome = true)) ∧
    dictGet (ModelCache.get mc kw₁).state.cache (_key_for_dict kw₁) =
      some (ModelCache.get mc kw₁).value ∧
    ModelCache.get (ModelCache.get mc kw₁).state kw₂ =
      ⟨(ModelCache.get mc kw₁).value,
        { (ModelCache.get mc kw₁).state with lastKwargs := kw₂ }, false, false⟩ ∧
    ModelCache.get mc₂ kw₃ = ⟨v, { mc₂ with lastKwargs := kw₃ }, false, false⟩ := by
  have hstored : dictGet (ModelCache.get mc kw₁).state.cache (_key_for_dict kw₁) =
      some (ModelCache.get mc kw₁).value := by
    rcases hlf : mc.lookupFn kw₁ with _ | w₀ <;> rcases hf : mc.fabric with _ | f <;>
      simp [ModelCache.get, ModelCache._get_object, hmiss, hlf, hf,
        dictGet_dictInsert_self]
  refine ⟨?_, ?_, ?_, hstored, ?_, modelCache_get_cache_hit mc₂ kw₃ v hhit⟩
  · rcases hlf : mc.lookupFn kw₁ with _ | w₀ <;> rcases hf : mc.fabric with _ | f <;>
      simp [ModelCache.get, ModelCache._get_object, hmiss, hlf, hf]
  · rcases hlf : mc.lookupFn kw₁ with _ | w₀ <;> rcases hf : mc.fabric with _ | f <;>
      simp [ModelCache.get, ModelCache._get_object, hmiss, hlf, hf]
  · rcases hlf : mc.lookupFn kw₁ with _ | w₀ <;> rcases hf : mc.fabric with _ | f <;>
      simp [ModelCache.get, ModelCache._get_object, hmiss, hlf, hf]
  · have hw : dictGet (ModelCache.get mc kw₁).state.cache (_key_for_dict kw₂) =
        some (ModelCache.get mc kw₁).value := by
      rw [hkey]
      exact hstored
    exact modelCache_get_cache_hit _ kw₂ _ hw

/-- Concrete cache used by the C3 witness: empty, a lookup that always
misses (every key raises `DoesNotExist`), and a factory producing `7`. -/
def mcW : ModelCache :=
  ⟨fun _ => none, some (fun _ => PyVal.pyInt 7), [], []⟩

/-- Witness for C3: `get(a=1, b=2)` then `get(b=2, a=1)` on a fresh
cache; both orders encode to the same sorted-tuple key, the first call
runs lookup and factory, the second returns the stored value untouched. -/
theorem model_cache_get_memoizes_witness :
    (ModelCache.get mcW [("a", PyVal.pyInt 1), ("b", PyVal.pyInt 2)]).performedLookup = true ∧
    (ModelCache.get mcW [("a", PyVal.pyInt 1), ("b", PyVal.pyInt 2)]).value =
      (match mcW.lookupFn [("a", PyVal.pyInt 1), ("b", PyVal.pyInt 2)] with
       | some w => some w
       | none => mcW.fabric.map (fun f => f [("a", PyVal.pyInt 1), ("b", PyVal.pyInt 2)])) ∧
    ((ModelCache.get mcW [("a", PyVal.pyInt 1), ("b", PyVal.pyInt 2)]).calledFabric = true ↔
      (mcW.lookupFn [("a", PyVal.pyInt 1), ("b", PyVal.pyInt 2)] = none ∧
        mcW.fabric.isSome = true)) ∧
    dictGet (ModelCache.get mcW [("a", PyVal.pyInt 1), ("b", PyVal.pyInt 2)]).state.cache
        (_key_for_dict [("a", PyVal.pyInt 1), ("b", PyVal.pyInt 2)]) =
      some (ModelCache.get mcW [("a", PyVal.pyInt 1), ("b", PyVal.pyInt 2)]).value ∧
    ModelCache.get (ModelCache.get mcW [("a", PyVal.pyInt 1), ("b", PyVal.pyInt 2)]).state
        [("b", PyVal.pyInt 2), ("a", PyVal.pyInt 1)] =
      ⟨(ModelCache.get mcW [("a", PyVal.pyInt 1), ("b", PyVal.pyInt 2)]).value,
        { (ModelCache.get mcW [("a", PyVal.pyInt 1), ("b", PyVal.pyInt 2)]).state with
            lastKwargs := [("b", PyVal.pyInt 2), ("a", PyVal.pyInt 1)] }, false, false⟩ ∧
    ModelCache.get
        { mcW with cache := [(_key_for_dict [("c", PyVal.pyInt 3)], some (PyVal.pyInt 9))] }
        [("c", PyVal.pyInt 3)] =
      ⟨some (PyVal.pyInt 9),
        { { mcW with cache := [(_key_for_dict [("c", PyVal.pyInt 3)], some (PyVal.pyInt 9))] } with
            lastKwargs := [("c", PyVal.pyInt 3)] }, false, false⟩ :=
  model_cache_get_memoizes mcW
    { mcW with cache := [(_key_for_dict [("c", PyVal.pyInt 3)], some (PyVal.pyInt 9))] }
    [("a", PyVal.pyInt 1), ("b", PyVal.pyInt 2)]
    [("b", PyVal.pyInt 2), ("a", PyVal.pyInt 1)]
    [("c", PyVal.pyInt 3)] (some (PyVal.pyInt 9)) rfl (by decide) (by decide)

/-! ### TransactionCM (tools.py lines 177-206) -/

/-- Django transaction primitives invoked by `TransactionCM`. -/
inductive TxAction where
  | enterManagement
  | commit
  | rollback
  deriving DecidableEq, Repr

/-- The method `__enter__` (lines 189-191):
`transaction.enter_transaction_management(True, using)`. -/
def TransactionCM.enter : TxAction := TxAction.enterManagement

/-- Exception information passed to `__exit__`: the exception type, or
`none` when the managed block raised nothing (the exception value and
traceback arguments are never consulted by this module). -/
abbrev ExcType := Option String

/-- The method `__exit__` (lines 193-199): run the catcher on the
exception information, commit on a truthy result and roll back
otherwise; the result itself is returned (which is what decides
exception suppression). -/
def TransactionCM.exit (catcher : ExcType → Bool) (excType : ExcType) :
    TxAction × Bool :=
  let result := catcher excType
  (if result then TxAction.commit else TxAction.rollback, result)

/-- The staticmethod `_default_catcher` (lines 201-206):
`return ex_type is None`. -/
def _default_catcher (excType : ExcType) : Bool := excType.isNone

/-- Claim C6: `__enter__` starts transaction management; `__exit__`
commits exactly when the pluggable catcher returns a truthy value and
rolls back otherwise; the default catcher is true exactly when the
exception type is `None`, so by default the transaction commits iff the
managed block raised no exception. -/
theorem transaction_cm_commit_iff (catcher : ExcType → Bool) (excType : ExcType) :
    TransactionCM.enter = TxAction.enterManagement ∧
    ((TransactionCM.exit catcher excType).1 = TxAction.commit ↔
      catcher excType = true) ∧
    ((TransactionCM.exit catcher excType).1 = TxAction.rollback ↔
      catcher excType = false) ∧
    (_default_catcher excType = true ↔ excType = none) ∧
    ((TransactionCM.exit _default_catcher excType).1 = TxAction.commit ↔
      excType = none) := by
  refine ⟨rfl, ?_, ?_, ?_, ?_⟩
  · rcases h : catcher excType <;> simp [TransactionCM.exit, h]
  · rcases h : catcher excType <;> simp [TransactionCM.exit, h]
  · rcases excType with _ | t <;> simp [_default_catcher]
  · rcases excType with _ | t <;> simp [TransactionCM.exit, _default_catcher]

/-! ### Request-parameter coercion (tools.py lines 209-264, 467-490)

The Lean `String` library functions do not evaluate inside the kernel,
so the Python `str` operations used by the module (`strip`, `split`,
`replace`, slicing, `int()` parsing) are modelled directly on the
character list `String.data`. -/

/-- The characters Python's `str.strip()` removes. -/
def isPySpace (c : Char) : Bool :=
  c = ' ' || c = '\t' || c = '\n' || c = '\r' || c = '\x0b' || c = '\x0c'

/-- Python `str.strip()`. -/
def pyStripChars (t : List Char) : List Char :=
  ((t.dropWhile isPySpace).reverse.dropWhile isPySpace).reverse

/-- Python `str.split(sep)` for a one-character separator: splits on
every occurrence, producing empty fields for adjacent separators and
one empty field for the empty string. -/
def splitChars (sep : Char) : List Char → List (List Char)
  | [] => [[]]
  | c :: rest =>
    if c = sep then [] :: splitChars sep rest
    else
      match splitChars sep rest with
      | [] => [[c]]
      | g :: gs => (c :: g) :: gs

/-- Numeric value of a non-empty all-digit character list. -/
def decDigitsVal (ds : List Char) : Option Nat :=
  if ds.isEmpty then none
  else if ds.all (fun c => c.isDigit) then
    some (ds.foldl (fun acc d => acc * 10 + (d.toNat - 48)) 0)
  else none

/-- Python 2 `int(str)`: optional surrounding whitespace, an optional
sign, then one or more decimal digits; anything else raises
`ValueError`, modelled as `none`. -/
def pyIntChars (t : List Char) : Option Int :=
  match pyStripChars t with
  | '-' :: rest => (decDigitsVal rest).map (fun n => -(n : Int))
  | '+' :: rest => (decDigitsVal rest).map (fun n => (n : Int))
  | u => (decDigitsVal u).map (fun n => (n : Int))

/-- Python 2 `int(s)` on a string. -/
def pyInt (s : String) : Option Int := pyIntChars s.data

/-- A request's parameter dict; `request.REQUEST.get(key, dflt)`. -/
def requestGet (request : List (String × String)) (key dflt : String) : String :=
  (dictGet request key).getD dflt

/-- `extract_int` (lines 209-225): `int(request.REQUEST.get(key, ''))`
with `ValueError` caught and turned into `None`. -/
def extract_int (request : List (String × String)) (key : String) :
    Except PyError (Option Int) :=
  match pyInt (requestGet request key "") with
  | some n => Except.ok (some n)
  | none => Except.ok none

/-- Python 2 eager `map(int, parts)` / list comprehension of `int`:
raises `ValueError` at the first non-numeric element. -/
def mapIntEager : List (List Char) → Except PyError (List Int)
  | [] => Except.ok []
  | p :: rest =>
    match pyIntChars p with
    | none => Except.error PyError.valueError
    | some n => (mapIntEager rest).map (fun l => n :: l)

/-- `extract_int_list` (lines 228-242):
`map(int, filter(None, request.REQUEST.get(key, '').split(',')))` —
there is no exception handler around the `int` calls. -/
def extract_int_list (request : List (String × String)) (key : String) :
    Except PyError (List Int) :=
  mapIntEager ((splitChars ',' (requestGet request key "").data).filter
    (fun p => !p.isEmpty))

structure PyDate where
  year : Nat
  month : Nat
  day : Nat
  deriving DecidableEq, Repr

def isLeap (y : Nat) : Bool := (y % 4 == 0 && y % 100 != 0) || (y % 400 == 0)

def daysInMonth (y m : Nat) : Nat :=
  if m = 2 then (if isLeap y then 29 else 28)
  else if m = 4 ∨ m = 6 ∨ m = 9 ∨ m = 11 then 30
  else 31

/-- `datetime.datetime.strptime` against a three-field dotted format:
the two day/month fields are one or two digits (ranges 1-31 and 1-12,
from the `%d`/`%m` patterns), the year field exactly four digits, and
the `datetime` constructor checks year ≥ 1 and the day against the
month's length.  `yearFirst` selects `%Y.%m.%d` over `%d.%m.%Y`.
A failed parse raises `ValueError`, modelled as `none`. -/
def strptimeDotted (yearFirst : Bool) (t : List Char) : Option PyDate :=
  match splitChars '.' t with
  | [f₁, f₂, f₃] =>
    let y := if yearFirst then f₁ else f₃
    let m := f₂
    let d := if yearFirst then f₃ else f₁
    match decDigitsVal d, decDigitsVal m, decDigitsVal y with
    | some dv, some mv, some yv =>
      if d.length ≤ 2 ∧ 1 ≤ dv ∧ dv ≤ 31 ∧ m.length ≤ 2 ∧ 1 ≤ mv ∧ mv ≤ 12 ∧
          y.length = 4 ∧ 1 ≤ yv ∧ dv ≤ daysInMonth yv mv then
        some ⟨yv, mv, dv⟩
      else none
    | _, _, _ => none
  | _ => none

/-- `str_to_date` (lines 245-264): truncate to ten characters, replace
dashes by dots, try `%d.%m.%Y` then `%Y.%m.%d`, both `ValueError`s
caught and mapped to `None`; falsy input (`None` or the empty string)
gives `None`. -/
def str_to_date (raw : Option String) : Except PyError (Option PyDate) :=
  match raw with
  | none => Except.ok none
  | some s =>
    if s.data.isEmpty then Except.ok none
    else
      let t := (s.data.take 10).map (fun c => if c = '-' then '.' else c)
      match strptimeDotted false t with
      | some d => Except.ok (some d)
      | none =>
        match strptimeDotted true t with
        | some d => Except.ok (some d)
        | none => Except.ok none

/-- `int_or_zero` (lines 467-474): `0 if not raw_str else int(raw_str)`
— no handler, so `int` may raise. -/
def int_or_zero (raw : String) : Except PyError Int :=
  if raw.data.isEmpty then Except.ok 0
  else
    match pyInt raw with
    | some n => Except.ok n
    | none => Except.error PyError.valueError

/-- `int_or_none` (lines 476-483): `None if not raw_str else int(raw_str)`
— no handler. -/
def int_or_none (raw : String) : Except PyError (Option Int) :=
  if raw.data.isEmpty then Except.ok none
  else
    match pyInt raw with
    | some n => Except.ok (some n)
    | none => Except.error PyError.valueError

/-- `int_list` (lines 485-490):
`[int(i.strip()) for i in raw_str.split(',')]` — no handler. -/
def int_list (raw : String) : Except PyError (List Int) :=
  mapIntEager ((splitChars ',' raw.data).map pyStripChars)

/-- Counterexample to claim C4 as stated: `extract_int_list` has no
`ValueError` handler, so the malformed parameter "a,b" raises
`ValueError` out of it rather than returning `None` or an empty list. -/
theorem extract_int_list_propagates_valueerror :
    extract_int_list [("lst", "a,b")] "lst" = Except.error PyError.valueError := rfl

/-- Amended C4: `extract_int` and `str_to_date` swallow `ValueError`
(returning `None` on malformed input), but `extract_int_list`,
`int_or_zero`, `int_or_none` and `int_list` have no handler and let
`ValueError` propagate on malformed numeric input such as "a". -/
theorem parsers_valueerror_behavior :
    (∀ (request : List (String × String)) (key : String),
      (extract_int request key).isOk = true) ∧
    (∀ raw : Option String, (str_to_date raw).isOk = true) ∧
    extract_int_list [("lst", "a,b")] "lst" = Except.error PyError.valueError ∧
    int_or_zero "a" = Except.error PyError.valueError ∧
    int_or_none "a" = Except.error PyError.valueError ∧
    int_list "a" = Except.error PyError.valueError := by
  refine ⟨?_, ?_, rfl, rfl, rfl, rfl⟩
  · intro request key
    rcases h : pyInt (requestGet request key "") with _ | n <;>
      simp [extract_int, h, Except.isOk, Except.toBool]
  · intro raw
    rcases raw with _ | s
    · rfl
    · rw [str_to_date]
      by_cases he : s.data.isEmpty = true
      · simp [he, Except.isOk, Except.toBool]
      · simp only [Bool.not_eq_true] at he
        simp only [he, Bool.false_eq_true, if_false]
        rcases h1 : strptimeDotted false ((s.data.take 10).map
            (fun c => if c = '-' then '.' else c)) with _ | d₁
        · rcases h2 : strptimeDotted true ((s.data.take 10).map
              (fun c => if c = '-' then '.' else c)) with _ | d₂ <;>
              simp [h1, h2, Except.isOk, Except.toBool]
        · simp [h1, Except.isOk, Except.toBool]

/-! ### matcher and model_to_dict (tools.py lines 425-462, 495-531)

String prefix/suffix tests are again modelled on `String.data` so that
they evaluate inside the kernel. -/

/-- Whether `s` starts with `p` (`str.startswith`). -/
def charsStartsWith : List Char → List Char → Bool
  | _, [] => true
  | [], _ :: _ => false
  | c :: cs, p :: ps => c = p && charsStartsWith cs ps

def strStartsWith (s p : String) : Bool := charsStartsWith s.data p.data

/-- Whether `s` ends with `p` (`str.endswith`). -/
def strEndsWith (s p : String) : Bool :=
  charsStartsWith s.data.reverse p.data.reverse

/-- Python `p[:-n]`. -/
def strDropRight (s : String) (n : Nat) : String :=
  String.mk (s.data.take (s.data.length - n))

/-- Python `p[1:]`. -/
def strDropFirst (s : String) : String := String.mk (s.data.drop 1)

/-- One pattern test built by `matcher.make_checker` (lines 447-454):
a trailing `*` makes a prefix pattern, otherwise a leading `*` a suffix
pattern, otherwise exact equality. -/
def patternChecker (p : String) : String → Bool :=
  if strEndsWith p "*" then fun s => strStartsWith s (strDropRight p 1)
  else if strStartsWith p "*" then fun s => strEndsWith s (strDropFirst p)
  else fun s => decide (s = p)

/-- The inner `make_checker` (lines 445-458): one test per pattern;
with no patterns the checker constantly answers `default`.  The
source's `list(patterns or ())` maps both `None` and `[]` to the empty
pattern list, so patterns are a plain list here. -/
def make_checker (patterns : List String) (dflt : Bool) : String → Bool :=
  let matchers := patterns.map patternChecker
  if matchers.isEmpty then fun _ => dflt
  else fun s => matchers.any (fun f => f s)

/-- `matcher` (lines 425-462): keep the strings matching some include
pattern (default: all) and no exclude pattern (default: none). -/
def matcher (includePats excludePats : List String) : String → Bool :=
  fun x => make_checker includePats true x && !(make_checker excludePats false x)

/-- A Django model field as `model_to_dict` sees it: its `attname` and
whether it is a `RelatedField` (a foreign key). -/
structure DjField where
  attname : String
  isRelated : Bool
  deriving DecidableEq, Repr

/-- The model object's attributes: `getattr` by name, `none` modelling
an `AttributeError`. -/
abbrev AttrMap := List (String × PyVal)

/-- `operator.attrgetter(attr)(obj)` for the dotless names used here. -/
def attrGet (attrs : AttrMap) (name : String) : Option PyVal :=
  dictGet attrs name

/-- `getattr(val, 'id', None)`. -/
def getIdAttr : PyVal → Option Int
  | PyVal.related i _ => i
  | _ => none

/-- `unicode(val)` for the values this module touches. -/
def unicodeOf : PyVal → String
  | PyVal.pyNone => "None"
  | PyVal.pyInt n => toString n
  | PyVal.pyStr s => s
  | PyVal.related _ r => r
  | PyVal.fkDict _ n => n

/-- The attribute `model_to_dict` actually reads for a field: foreign
keys drop the `_id` suffix (`attr = attr[:-3]`, line 520). -/
def resolvedAttr (fld : DjField) : String :=
  if fld.isRelated then strDropRight fld.attname 3 else fld.attname

/-- The value `model_to_dict` stores (lines 521-530): foreign keys are
replaced by `{'id': getattr(val, 'id', None), 'name': unicode(val)}`. -/
def serializedVal (fld : DjField) (val : PyVal) : PyVal :=
  if fld.isRelated then PyVal.fkDict (getIdAttr val) (unicodeOf val) else val

/-- The field loop of `model_to_dict` (lines 514-531), including the
`assert fld.attname.endswith('_id')` for related fields and the
`except AttributeError: continue`. -/
def modelToDictLoop (includePats excludePats : List String) (attrs : AttrMap) :
    List DjField → List (String × PyVal) → Except PyError (List (String × PyVal))
  | [], res => Except.ok res
  | fld :: rest, res =>
    if matcher includePats excludePats fld.attname then
      if fld.isRelated && !(strEndsWith fld.attname "_id") then
        Except.error PyError.assertionError
      else
        match attrGet attrs (resolvedAttr fld) with
        | none => modelToDictLoop includePats excludePats attrs rest res
        | some val =>
          modelToDictLoop includePats excludePats attrs rest
            (dictInsert res fld.attname (serializedVal fld val))
    else modelToDictLoop includePats excludePats attrs rest res

/-- `model_to_dict` (lines 495-531). -/
def model_to_dict (fields : List DjField) (attrs : AttrMap)
    (includePats excludePats : List String) :
    Except PyError (List (String × PyVal)) :=
  modelToDictLoop includePats excludePats attrs fields []

/-- Claim-language pattern match of C7: exact match, `*suffix`, or
`prefix*` (a pattern both starting and ending with `*` reads as a
prefix pattern, as in the code). -/
def patMatch (p s : String) : Bool :=
  if strEndsWith p "*" then strStartsWith s (strDropRight p 1)
  else if strStartsWith p "*" then strEndsWith s (strDropFirst p)
  else decide (s = p)

/-- Restatement of claim C7's description of `model_to_dict`: visit
exactly the class field list, keep a field iff its attname matches some
include pattern (all when include is empty) and no exclude pattern and
its attribute is readable, serializing foreign keys as id/name pairs
under the field's attname. -/
def model_to_dict_spec (fields : List DjField) (attrs : AttrMap)
    (includePats excludePats : List String) : List (String × PyVal) :=
  fields.filterMap (fun fld =>
    if (includePats.isEmpty || includePats.any (fun p => patMatch p fld.attname)) &&
        !(excludePats.any (fun p => patMatch p fld.attname)) then
      match attrGet attrs (resolvedAttr fld) with
      | none => none
      | some val => some (fld.attname, serializedVal fld val)
    else none)

lemma matcher_eq_patMatch (includePats excludePats : List String) (s : String) :
    matcher includePats excludePats s =
      ((includePats.isEmpty || includePats.any (fun p => patMatch p s)) &&
        !(excludePats.any (fun p => patMatch p s))) := by
  have hpat : ∀ p, patternChecker p s = patMatch p s := by
    intro p
    rw [patternChecker, patMatch]
    by_cases h1 : strEndsWith p "*" = true
    · simp [h1]
    · simp only [h1, Bool.false_eq_true, if_false]
      by_cases h2 : strStartsWith p "*" = true
      · simp [h2]
      · simp [h2]
  have hany : ∀ (l : List String),
      (l.map patternChecker).any (fun f => f s) = l.any (fun p => patMatch p s) := by
    intro l
    induction l with
    | nil => rfl
    | cons a as ih => simp [List.map_cons, List.any_cons, hpat a, ih]
  rcases includePats with _ | ⟨p, ps⟩ <;> rcases excludePats with _ | ⟨q, qs⟩ <;>
    simp [matcher, make_checker, hany, hpat]

lemma filter_ne_key_eq_self {κ ν : Type} [DecidableEq κ] (k : κ) :
    ∀ (d : List (κ × ν)), k ∉ d.map Prod.fst →
      d.filter (fun p => decide (p.1 ≠ k)) = d
  | [], _ => rfl
  | p :: rest, h => by
    simp only [List.map_cons, List.mem_cons] at h
    push_neg at h
    have hp : decide (p.1 ≠ k) = true := by
      simp [Ne.symm h.1]
    rw [List.filter_cons, if_pos hp, filter_ne_key_eq_self k rest h.2]

lemma dictInsert_eq_append {κ ν : Type} [DecidableEq κ]
    (d : List (κ × ν)) (k : κ) (v : ν) (h : k ∉ d.map Prod.fst) :
    dictInsert d k v = d ++ [(k, v)] := by
  rw [dictInsert, filter_ne_key_eq_self k d h]

lemma modelToDictLoop_spec (includePats excludePats : List String) (attrs : AttrMap) :
    ∀ (fields : List DjField) (res : List (String × PyVal)),
      (∀ fld ∈ fields, fld.isRelated = true → strEndsWith fld.attname "_id" = true) →
      (fields.map DjField.attname).Nodup →
      (∀ fld ∈ fields, fld.attname ∉ res.map Prod.fst) →
      modelToDictLoop includePats excludePats attrs fields res =
        Except.ok (res ++ model_to_dict_spec fields attrs includePats excludePats)
  | [], res => by
      intro _ _ _
      simp [modelToDictLoop, model_to_dict_spec]
  | fld :: rest, res => by
      intro hfk hnodup hres
      have hfk' : ∀ f ∈ rest, f.isRelated = true → strEndsWith f.attname "_id" = true :=
        fun f hf => hfk f (List.mem_cons_of_mem _ hf)
      have hnd := (by simpa using hnodup :
        (∀ x ∈ rest, ¬ x.attname = fld.attname) ∧ (rest.map DjField.attname).Nodup)
      have hres' : ∀ f ∈ rest, f.attname ∉ res.map Prod.fst :=
        fun f hf => hres f (List.mem_cons_of_mem _ hf)
      simp only [modelToDictLoop]
      by_cases hm : matcher includePats excludePats fld.attname = true
      · have hassert : (fld.isRelated && !(strEndsWith fld.attname "_id")) = false := by
          rcases hrel : fld.isRelated with _ | _
          · simp
          · simp [hfk fld (List.mem_cons_self _ _) hrel]
        rw [if_pos hm, if_neg (by simp [hassert])]
        rcases hav : attrGet attrs (resolvedAttr fld) with _ | val
        · -- AttributeError: this field is silently omitted
          show modelToDictLoop includePats excludePats attrs rest res = _
          rw [modelToDictLoop_spec includePats excludePats attrs rest res hfk' hnd.2 hres']
          have hspec : model_to_dict_spec (fld :: rest) attrs includePats excludePats =
              model_to_dict_spec rest attrs includePats excludePats := by
            simp only [model_to_dict_spec, List.filterMap_cons]
            rw [← matcher_eq_patMatch includePats excludePats fld.attname]
            simp [hm, hav]
          rw [hspec]
        · -- serialized under the field's attname
          have hresApp : ∀ f ∈ rest,
              f.attname ∉ (res ++ [(fld.attname, serializedVal fld val)]).map Prod.fst := by
            intro f hf
            have h1 := hres f (List.mem_cons_of_mem _ hf)
            have h2 : f.attname ≠ fld.attname := fun he => hnd.1 f hf he
            simp [h1, h2]
          show modelToDictLoop includePats excludePats attrs rest
              (dictInsert res fld.attname (serializedVal fld val)) = _
          rw [dictInsert_eq_append res fld.attname _ (hres fld (List.mem_cons_self _ _))]
          rw [modelToDictLoop_spec includePats excludePats attrs rest
            (res ++ [(fld.attname, serializedVal fld val)]) hfk' hnd.2 hresApp]
          have hspec : model_to_dict_spec (fld :: rest) attrs includePats excludePats =
              (fld.attname, serializedVal fld val) ::
                model_to_dict_spec rest attrs includePats excludePats := by
            simp only [model_to_dict_spec, List.filterMap_cons]
            rw [← matcher_eq_patMatch includePats excludePats fld.attname]
            simp [hm, hav]
          rw [hspec]
          simp
      · rw [if_neg hm]
        rw [modelToDictLoop_spec includePats excludePats attrs rest res hfk' hnd.2 hres']
        have hspec : model_to_dict_spec (fld :: rest) attrs includePats excludePats =
            model_to_dict_spec rest attrs includePats excludePats := by
          simp only [model_to_dict_spec, List.filterMap_cons]
          rw [← matcher_eq_patMatch includePats excludePats fld.attname]
          simp [hm]
        rw [hspec]

/-- Claim C7: `model_to_dict` visits exactly the class field list,
includes a field iff its attname matches some include pattern (all
names when include is empty) and no exclude pattern (exact, `*suffix`
or `prefix*` patterns), and serializes each included foreign-key field
as an id/display-name pair stored under the field's attname.  The two
hypotheses are Django invariants: foreign-key attnames end in `_id`
(the code asserts this) and attnames are distinct within a model. -/
theorem model_to_dict_serializes (fields : List DjField) (attrs : AttrMap)
    (includePats excludePats : List String) (s : String)
    (hfk : ∀ fld ∈ fields, fld.isRelated = true → strEndsWith fld.attname "_id" = true)
    (hnodup : (fields.map DjField.attname).Nodup) :
    model_to_dict fields attrs includePats excludePats =
      Except.ok (model_to_dict_spec fields attrs includePats excludePats) ∧
    matcher includePats excludePats s =
      ((includePats.isEmpty || includePats.any (fun p => patMatch p s)) &&
        !(excludePats.any (fun p => patMatch p s))) := by
  constructor
  · rw [model_to_dict,
      modelToDictLoop_spec includePats excludePats attrs fields [] hfk hnodup
        (by intro f _; simp)]
    simp
  · exact matcher_eq_patMatch includePats excludePats s

/-- Witness for C7: a model with a plain field, an excluded field and a
foreign key, serialized with an exclude pattern. -/
theorem model_to_dict_serializes_witness :
    model_to_dict
        [⟨"id", false⟩, ⟨"secret_code", false⟩, ⟨"person_id", true⟩]
        [("id", PyVal.pyInt 1), ("secret_code", PyVal.pyStr "x"),
          ("person", PyVal.related (some 5) "Bob")]
        [] ["secret*"] =
      Except.ok (model_to_dict_spec
        [⟨"id", false⟩, ⟨"secret_code", false⟩, ⟨"person_id", true⟩]
        [("id", PyVal.pyInt 1), ("secret_code", PyVal.pyStr "x"),
          ("person", PyVal.related (some 5) "Bob")]
        [] ["secret*"]) ∧
    matcher [] ["secret*"] "secret_code" =
      ((List.isEmpty ([] : List String) ||
          List.any ([] : List String) (fun p => patMatch p "secret_code")) &&
        !(List.any ["secret*"] (fun p => patMatch p "secret_code"))) :=
  model_to_dict_serializes
    [⟨"id", false⟩, ⟨"secret_code", false⟩, ⟨"person_id", true⟩]
    [("id", PyVal.pyInt 1), ("secret_code", PyVal.pyStr "x"),
      ("person", PyVal.related (some 5) "Bob")]
    [] ["secret*"] "secret_code" (by decide) (by decide)

/-- Projection of an `Except` with a default, to inspect the produced
dict. -/
def exceptGetD {ε β : Type} (e : Except ε β) (dflt : β) : β :=
  match e with
  | Except.ok v => v
  | Except.error _ => dflt

lemma model_to_dict_spec_cons (fld : DjField) (rest : List DjField) (attrs : AttrMap)
    (includePats excludePats : List String) :
    model_to_dict_spec (fld :: rest) attrs includePats excludePats =
      (if matcher includePats excludePats fld.attname then
        (match attrGet attrs (resolvedAttr fld) with
         | none => model_to_dict_spec rest attrs includePats excludePats
         | some val => (fld.attname, serializedVal fld val) ::
             model_to_dict_spec rest attrs includePats excludePats)
       else model_to_dict_spec rest attrs includePats excludePats) := by
  rw [model_to_dict_spec, List.filterMap_cons,
    ← matcher_eq_patMatch includePats excludePats fld.attname]
  by_cases hm : matcher includePats excludePats fld.attname = true
  · simp only [hm, if_true]
    rcases hav : attrGet attrs (resolvedAttr fld) with _ | val <;>
      simp [hav, model_to_dict_spec]
  · simp only [Bool.not_eq_true] at hm
    simp [hm, model_to_dict_spec]

lemma dictGet_spec_not_mem (attrs : AttrMap) (includePats excludePats : List String)
    (name : String) :
    ∀ fields : List DjField, name ∉ fields.map DjField.attname →
      dictGet (model_to_dict_spec fields attrs includePats excludePats) name = none
  | [], _ => rfl
  | fld :: rest, h => by
    simp only [List.map_cons, List.mem_cons] at h
    push_neg at h
    have hne : ¬ (fld.attname = name) := fun he => h.1 he.symm
    rw [model_to_dict_spec_cons]
    by_cases hm : matcher includePats excludePats fld.attname = true
    · rcases hav : attrGet attrs (resolvedAttr fld) with _ | val
      · simp [hm, hav,
          dictGet_spec_not_mem attrs includePats excludePats name rest h.2]
      · simp [hm, hav, dictGet, hne,
          dictGet_spec_not_mem attrs includePats excludePats name rest h.2]
    · simp [hm, dictGet_spec_not_mem attrs includePats excludePats name rest h.2]

lemma dictGet_spec_eq (attrs : AttrMap) (includePats excludePats : List String) :
    ∀ (fields : List DjField) (fld : DjField),
      (fields.map DjField.attname).Nodup →
      fld ∈ fields →
      matcher includePats excludePats fld.attname = true →
      dictGet (model_to_dict_spec fields attrs includePats excludePats) fld.attname =
        (attrGet attrs (resolvedAttr fld)).map (serializedVal fld)
  | [], fld => by
      intro _ hmem
      exact absurd hmem (List.not_mem_nil _)
  | f :: rest, fld => by
    intro hnodup hmem hperm
    have hnd := (by simpa using hnodup :
      (∀ x ∈ rest, ¬ x.attname = f.attname) ∧ (rest.map DjField.attname).Nodup)
    rw [model_to_dict_spec_cons]
    rcases List.mem_cons.mp hmem with rfl | hmem'
    · rw [if_pos hperm]
      rcases hav : attrGet attrs (resolvedAttr fld) with _ | val
      · have hnot : fld.attname ∉ rest.map DjField.attname := by
          intro hc
          rcases List.mem_map.mp hc with ⟨x, hx, he⟩
          exact hnd.1 x hx he
        simp [hav,
          dictGet_spec_not_mem attrs includePats excludePats fld.attname rest hnot]
      · simp [hav, dictGet]
    · have hne : ¬ (f.attname = fld.attname) := by
        intro he
        exact hnd.1 fld hmem' he.symm
      by_cases hm : matcher includePats excludePats f.attname = true
      · rcases hav : attrGet attrs (resolvedAttr f) with _ | val
        · simp [hm, hav,
            dictGet_spec_eq attrs includePats excludePats rest fld hnd.2 hmem' hperm]
        · simp [hm, hav, dictGet, hne,
            dictGet_spec_eq attrs includePats excludePats rest fld hnd.2 hmem' hperm]
      · simp [hm,
          dictGet_spec_eq attrs includePats excludePats rest fld hnd.2 hmem' hperm]

/-- Claim C10: `model_to_dict` never propagates an AttributeError: a
permitted field whose attribute read fails is silently omitted from the
result, and every other permitted field is still serialized (its entry
is exactly the serialization of its attribute value).  Hypotheses as in
C7, plus a permitted member field to inspect. -/
theorem model_to_dict_omits_attribute_errors (fields : List DjField)
    (attrs : AttrMap) (includePats excludePats : List String) (fld : DjField)
    (hfk : ∀ f ∈ fields, f.isRelated = true → strEndsWith f.attname "_id" = true)
    (hnodup : (fields.map DjField.attname).Nodup)
    (hmem : fld ∈ fields)
    (hperm : matcher includePats excludePats fld.attname = true) :
    (model_to_dict fields attrs includePats excludePats).isOk = true ∧
    dictGet (exceptGetD (model_to_dict fields attrs includePats excludePats) [])
        fld.attname =
      (attrGet attrs (resolvedAttr fld)).map (serializedVal fld) := by
  have heq : model_to_dict fields attrs includePats excludePats =
      Except.ok (model_to_dict_spec fields attrs includePats excludePats) := by
    rw [model_to_dict,
      modelToDictLoop_spec includePats excludePats attrs fields [] hfk hnodup
        (by intro f _; simp)]
    simp
  rw [heq]
  exact ⟨rfl,
    dictGet_spec_eq attrs includePats excludePats fields fld hnodup hmem hperm⟩

/-- Witness for C10: field `a` lacks its attribute and is omitted;
field `b` is present and serialized. -/
theorem model_to_dict_omits_attribute_errors_witness :
    ((model_to_dict [⟨"a", false⟩, ⟨"b", false⟩] [("b", PyVal.pyInt 2)] [] []).isOk = true ∧
      dictGet (exceptGetD (model_to_dict [⟨"a", false⟩, ⟨"b", false⟩]
          [("b", PyVal.pyInt 2)] [] []) []) "a" =
        (attrGet [("b", PyVal.pyInt 2)] (resolvedAttr ⟨"a", false⟩)).map
          (serializedVal ⟨"a", false⟩)) ∧
    dictGet (exceptGetD (model_to_dict [⟨"a", false⟩, ⟨"b", false⟩]
        [("b", PyVal.pyInt 2)] [] []) []) "b" =
      (attrGet [("b", PyVal.pyInt 2)] (resolvedAttr ⟨"b", false⟩)).map
        (serializedVal ⟨"b", false⟩) :=
  ⟨model_to_dict_omits_attribute_errors [⟨"a", false⟩, ⟨"b", false⟩]
      [("b", PyVal.pyInt 2)] [] [] ⟨"a", false⟩
      (by decide) (by decide) (by decide) (by decide),
    (model_to_dict_omits_attribute_errors [⟨"a", false⟩, ⟨"b", false⟩]
      [("b", PyVal.pyInt 2)] [] [] ⟨"b", false⟩
      (by decide) (by decide) (by decide) (by decide)).2⟩

/-! ### cached_to (tools.py lines 404-422) -/

/-- The decorator `cached_to(attr_name)` applied to a no-argument method
`func`, invoked on an object `self` (an attribute map): if the cache
attribute exists (`hasattr`) its value is returned, otherwise `func`
runs and its result is stored on the object (`setattr`).  The second
component is the object's attribute state after the call. -/
def cached_to (attr_name : String) (func : AttrMap → PyVal) (self : AttrMap) :
    PyVal × AttrMap :=
  match dictGet self attr_name with
  | some result => (result, self)
  | none =>
    let result := func self
    (result, dictInsert self attr_name result)

/-- The method body used by the C8 counterexample: a method reading the
object's own field `x`, so its value depends on mutable object state. -/
def probeFunc : AttrMap → PyVal :=
  fun self => (dictGet self "x").getD PyVal.pyNone

lemma next_cnt_succ {α : Type} (s : QuerySplitter α) (x : α) (s' : QuerySplitter α)
    (h : QuerySplitter.next s = Except.ok (x, s')) : s'.cnt = s.cnt + 1 := by
  rw [QuerySplitter.next] at h
  by_cases hc : s.limit ≤ s.cnt
  · rw [if_pos hc] at h
    simp at h
  · rw [if_neg hc] at h
    by_cases hload : (s.chunk.isEmpty && !s.noMoreData) = true
    · simp only [hload, if_true] at h
      rcases hch : (QuerySplitter.loadChunk s).chunk with _ | ⟨y, rest⟩
      · rw [hch] at h
        simp at h
      · rw [hch] at h
        simp only [Except.ok.injEq, Prod.mk.injEq] at h
        have hcnt : (QuerySplitter.loadChunk s).cnt = s.cnt := by
          simp only [QuerySplitter.loadChunk]
          split <;> rfl
        rw [← h.2]
        simp [hcnt]
    · simp only [Bool.not_eq_true] at hload
      simp only [hload, Bool.false_eq_true, if_false] at h
      rcases hch : s.chunk with _ | ⟨y, rest⟩
      · rw [hch] at h
        simp at h
      · rw [hch] at h
        simp only [Except.ok.injEq, Prod.mk.injEq] at h
        rw [← h.2]

/-- Counterexample to claim C8 as stated: a `cached_to`-wrapped method
(not `ModelCache`) is not stateless across calls: the first call stores
its result on the object passed in, and a later call returns that
retained value even though the underlying method would now return a
different one. -/
theorem cached_to_counterexample :
    (cached_to "c" probeFunc [("x", PyVal.pyInt 1)]).2 ≠ [("x", PyVal.pyInt 1)] ∧
    (cached_to "c" probeFunc
        (dictInsert (cached_to "c" probeFunc [("x", PyVal.pyInt 1)]).2 "x"
          (PyVal.pyInt 2))).1 ≠
      probeFunc (dictInsert (cached_to "c" probeFunc [("x", PyVal.pyInt 1)]).2 "x"
        (PyVal.pyInt 2)) :=
  ⟨by decide, by decide⟩

/-- Amended C8: besides `ModelCache`, two helpers do retain state:
`cached_to` stores the first result on the object passed in and later
calls return the retained value without re-running the method, and
`QuerySplitter.next` mutates the splitter it is called on (each
successful call changes the state).  The remaining helpers are plain
functions of their inputs. -/
theorem cached_to_and_next_stateful {α : Type} (attr_name : String)
    (func : AttrMap → PyVal) (self : AttrMap)
    (s : QuerySplitter α) (x : α) (s' : QuerySplitter α)
    (hmiss : dictGet self attr_name = none)
    (hnext : QuerySplitter.next s = Except.ok (x, s')) :
    cached_to attr_name func self =
      (func self, dictInsert self attr_name (func self)) ∧
    (cached_to attr_name func (cached_to attr_name func self).2).1 = func self ∧
    s' ≠ s := by
  have h1 : cached_to attr_name func self =
      (func self, dictInsert self attr_name (func self)) := by
    simp only [cached_to, hmiss]
  refine ⟨h1, ?_, ?_⟩
  · rw [h1]
    simp only [cached_to, dictGet_dictInsert_self]
  · intro he
    have hcnt := next_cnt_succ s x s' hnext
    rw [he] at hcnt
    omega

/-- Witness for the amended C8 at concrete inputs. -/
theorem cached_to_and_next_stateful_witness :
    cached_to "c" probeFunc [("x", PyVal.pyInt 1)] =
      (probeFunc [("x", PyVal.pyInt 1)],
        dictInsert [("x", PyVal.pyInt 1)] "c" (probeFunc [("x", PyVal.pyInt 1)])) ∧
    (cached_to "c" probeFunc (cached_to "c" probeFunc [("x", PyVal.pyInt 1)]).2).1 =
      probeFunc [("x", PyVal.pyInt 1)] ∧
    (⟨[10, 20], 2, 2, [20], 1, false⟩ : QuerySplitter Nat) ≠
      ⟨[10, 20], 0, 2, [], 0, false⟩ :=
  cached_to_and_next_stateful "c" probeFunc [("x", PyVal.pyInt 1)]
    (⟨[10, 20], 0, 2, [], 0, false⟩ : QuerySplitter Nat) 10
    (⟨[10, 20], 2, 2, [20], 1, false⟩ : QuerySplitter Nat) rfl rfl

end ObjectPack
